import Mathlib

/-!
# Verification of `OperationsCollector` (n8n-openapi-node)

Shallow embedding of `src/OperationsCollector.ts`: the operation-collection
and field-derivation core that turns OpenAPI operations into n8n node
properties.  External collaborators (operation parser, resource parser,
schema-to-properties converter, path-variable rewriter) are modelled as
function-valued parameters; fallible TypeScript calls are modelled with
`Except String`.  The collector's mutable instance state (`_fields`,
`optionsByResource`) is threaded explicitly as a `CollectorState`.
-/

namespace N8n

/-- The `show` part of an n8n `displayOptions` object.  The `operation`
constraint is optional because the `operations` getter emits a condition with
only a `resource` key. -/
structure DisplayShow where
  resource : List String
  operation : Option (List String)
deriving DecidableEq, Repr

/-- Embedding of n8n's `INodeProperties` as used by the collector: display
name, stable key, type tag (`"string"`, `"collection"`, `"notice"`,
`"options"`, ...), required flag, default value (rendered as a string: `""`
for `''`, `"{}"` for `{}`), nested sub-properties (for collection fields),
visibility condition, and the auxiliary presentation attributes the collector
writes (`placeholder`, `description`, `noDataExpression`, and the
`typeOptions: {theme: 'info'}` marker, modelled as `themeInfo`). -/
structure NodeProperty where
  displayName : String
  name : String
  type : String
  required : Bool := false
  default : String := ""
  options : List NodeProperty := []
  displayOptions : Option DisplayShow := none
  placeholder : String := ""
  description : String := ""
  noDataExpression : Bool := false
  themeInfo : Bool := false

/-- The `request` part of an option's routing template. -/
structure RoutingRequest where
  method : String
  url : String
deriving DecidableEq, Repr

/-- The routing template bound into an option descriptor. -/
structure Routing where
  request : RoutingRequest
deriving DecidableEq, Repr

/-- The option descriptor built by `parseOperation`: name, value, action,
description and the routing template. -/
structure OperationOption where
  name : String
  value : String
  action : String
  description : String
  routing : Routing
deriving DecidableEq, Repr

/-- One entry of the `operations` getter's result: the per-resource
operation selector (an options-type property whose choices are option
descriptors). -/
structure OperationSelector where
  displayName : String
  name : String
  type : String
  noDataExpression : Bool
  displayOptions : Option DisplayShow
  options : List OperationOption
  default : String
deriving DecidableEq, Repr

/-- The slice of `OpenAPIV3.OperationObject` the collector reads.  Raw
parameter entries and the raw request body are opaque payloads (strings)
interpreted only by the external schema converter. -/
structure Operation where
  operationId : Option String := none
  tags : Option (List String) := none
  parameters : Option (List String) := none
  requestBody : Option String := none

/-- The `OperationContext` passed by the traversal driver. -/
structure OperationContext where
  pattern : String
  method : String

/-- The external collaborators, bundled.  Each TypeScript call that can throw
is modelled as `Except String`; `replacePathVarsToParameter` is the pure
URL-template rewriter. -/
structure Collaborators where
  shouldSkip : Operation → OperationContext → Except String Bool
  name : Operation → OperationContext → Except String String
  value : Operation → OperationContext → Except String String
  action : Operation → OperationContext → Except String String
  description : Operation → OperationContext → Except String String
  resourceValue : String → Except String String
  fromParameters : List String → Except String (List NodeProperty)
  fromRequestBody : Option String → Except String (List NodeProperty)
  replacePathVarsToParameter : String → String

/-- Modelled from the spec: `OptionsByResourceMap` (file
`src/n8n/OptionsByResourceMap.ts`, not part of the provided sources) is a
mapping from resource identifier to the ordered sequence of option
descriptors, insertion-ordered with no deduplication (spec §4.2: "`add`
appends option to the sequence for that resource, creating the sequence on
first use; resources preserve first-seen order").  Embedded as an
association list in key insertion order. -/
abbrev OptionsByResourceMap := List (String × List OperationOption)

/-- Modelled from the spec: `add(resource, option)` appends the option to the
resource's sequence (no deduplication), creating the sequence at the end on
first use so that resources keep first-seen order. -/
def OptionsByResourceMap.add : OptionsByResourceMap → String → OperationOption →
    OptionsByResourceMap
  | [], resource, o => [(resource, [o])]
  | p :: ps, resource, o =>
    if p.1 = resource then (p.1, p.2 ++ [o]) :: ps
    else p :: OptionsByResourceMap.add ps resource o

/-- Modelled from the spec: the map's `size` is the number of distinct
resources (= number of entries, since keys are unique by construction). -/
def OptionsByResourceMap.size (m : OptionsByResourceMap) : Nat :=
  m.length

/-- The sequence of options registered under a resource (`[]` when the
resource is absent).  Auxiliary read used to state theorems. -/
def OptionsByResourceMap.resOptions : OptionsByResourceMap → String →
    List OperationOption
  | [], _ => []
  | p :: ps, resource =>
    if p.1 = resource then p.2 else OptionsByResourceMap.resOptions ps resource

/-- `toUpperCase` on a string, embedded over the underlying character list
(extensionally `String.toUpper`, but defined by structural recursion so that
concrete witnesses evaluate inside the kernel). -/
def strToUpper (s : String) : String := ⟨s.data.map Char.toUpper⟩

/-- The collector's mutable state: the Global Field List `_fields` and the
Resource–Option Aggregator `optionsByResource`. -/
structure CollectorState where
  fields : List NodeProperty
  optionsByResource : OptionsByResourceMap

/-- A freshly constructed collector: empty field list, empty aggregator. -/
def initialState : CollectorState := ⟨[], []⟩

namespace BaseOperationsCollector

/-- The synthesized `additionalQueryParameters` collection field wrapping the
optional parameter fields. -/
def additionalQueryParametersField (optionalParameters : List NodeProperty) :
    NodeProperty :=
  { displayName := "Additional Query Parameters"
    name := "additionalQueryParameters"
    type := "collection"
    placeholder := "Add Field"
    default := "{}"
    options := optionalParameters
    description := "Optional query parameters that can be added" }

/-- The synthesized `additionalBodyFields` collection field wrapping the
optional body fields. -/
def additionalBodyFieldsField (optionalBodyFields : List NodeProperty) :
    NodeProperty :=
  { displayName := "Additional Body Fields"
    name := "additionalBodyFields"
    type := "collection"
    placeholder := "Add Field"
    default := "{}"
    options := optionalBodyFields
    description := "Optional body fields that can be added" }

/-- The literal guidance text of the advisory notice. -/
def noBodyMsg : String :=
  "There's no body available for request, kindly use HTTP Request node to send body"

/-- The advisory notice field appended when request-body derivation fails. -/
def bodyNoticeField (context : OperationContext) : NodeProperty :=
  { displayName :=
      strToUpper context.method ++ " " ++ context.pattern ++ "<br/><br/>" ++ noBodyMsg
    name := "operation"
    type := "notice"
    options := []
    default := "" }

/-- The parameter-handling half of `parseFields` (source lines 101–135):
derive all parameter fields, split by the required flag preserving order,
required fields inline, optional fields folded into one
`additionalQueryParameters` collection appended iff any exist.  Skipped
entirely when `operation.parameters` is absent. -/
def parseParameterFields (C : Collaborators) (operation : Operation) :
    Except String (List NodeProperty) :=
  match operation.parameters with
  | none => pure []
  | some ps => do
    let allParameters ← C.fromParameters ps
    let requiredParameters := allParameters.filter (fun p => p.required)
    let optionalParameters := allParameters.filter (fun p => !p.required)
    if optionalParameters.length > 0 then
      pure (requiredParameters ++ [additionalQueryParametersField optionalParameters])
    else
      pure requiredParameters

/-- `parseFields` (source lines 98–187): parameter fields, then request-body
fields under the same required/optional policy; a request-body derivation
failure is caught locally and replaced by the single advisory notice. -/
def parseFields (C : Collaborators) (operation : Operation)
    (context : OperationContext) : Except String (List NodeProperty) := do
  let fields ← parseParameterFields C operation
  match C.fromRequestBody operation.requestBody with
  | .ok bodyFields =>
    if bodyFields.length > 0 then
      let requiredBodyFields := bodyFields.filter (fun f => f.required)
      let optionalBodyFields := bodyFields.filter (fun f => !f.required)
      if optionalBodyFields.length > 0 then
        pure (fields ++ requiredBodyFields ++
          [additionalBodyFieldsField optionalBodyFields])
      else
        pure (fields ++ requiredBodyFields)
    else
      pure fields
  | .error _ =>
    pure (fields ++ [bodyNoticeField context])

/-- `parseOperation` (source lines 201–224): build the option descriptor from
the four namer derivations plus the routing template
`{method: upper(method), url: "=" ++ rewritten pattern}`, then assemble the
field list. -/
def parseOperation (C : Collaborators) (operation : Operation)
    (context : OperationContext) :
    Except String (OperationOption × List NodeProperty) := do
  let n ← C.name operation context
  let v ← C.value operation context
  let a ← C.action operation context
  let d ← C.description operation context
  let option : OperationOption :=
    { name := n, value := v, action := a, description := d
      routing := ⟨⟨strToUpper context.method,
        "=" ++ C.replacePathVarsToParameter context.pattern⟩⟩ }
  let fields ← parseFields C operation context
  pure (option, fields)

/-- `addDisplayOption` (source lines 189–199): overwrite every field's
visibility condition with `{resource: [resource], operation: [operation]}`.
The TypeScript mutates in place; the embedding returns the updated list. -/
def addDisplayOption (fields : List NodeProperty) (resource : String)
    (operation : String) : List NodeProperty :=
  fields.map (fun f =>
    { f with displayOptions := some ⟨[resource], some [operation]⟩ })

/-- The fan-out loop body of `_visitOperation` (source lines 85–91): for one
resolved resource, deep-copy the operation's fields, tag them with the
(resource, option name) visibility condition, register the option, and append
the tagged copy to the Global Field List. -/
def fanOutStep (operationFields : List NodeProperty) (option : OperationOption)
    (st : CollectorState) (resourceName : String) : CollectorState :=
  { fields := st.fields ++ addDisplayOption operationFields resourceName option.name
    optionsByResource := st.optionsByResource.add resourceName option }

/-- The dereference `operation.tags!!.map(...)` of source line 84: mapping
over an absent tag list raises a `TypeError` in JavaScript. -/
def tagsOrThrow : Option (List String) → Except String (List String)
  | some ts => pure ts
  | none => Except.error "TypeError: Cannot read properties of undefined"

/-- `_visitOperation` (source lines 78–92), parametrized by the
`parseOperation` implementation so the subclass override is covered: consult
the skip policy, derive option and fields, dereference `operation.tags!!`
(a `TypeError` when absent), resolve resources, then fan out per resource.
All fallible steps happen before any state change, matching the source. -/
def visitCore
    (parseOp : Collaborators → Operation → OperationContext →
      Except String (OperationOption × List NodeProperty))
    (C : Collaborators) (operation : Operation) (context : OperationContext)
    (s : CollectorState) : Except String CollectorState := do
  let skip ← C.shouldSkip operation context
  if skip then
    pure s
  else do
    let (option, operationFields) ← parseOp C operation context
    let tags ← tagsOrThrow operation.tags
    let resources ← tags.mapM C.resourceValue
    pure (resources.foldl (fanOutStep operationFields option) s)

/-- `_visitOperation` of the base collector. -/
def _visitOperation (C : Collaborators) (operation : Operation)
    (context : OperationContext) (s : CollectorState) :
    Except String CollectorState :=
  visitCore parseOperation C operation context s

/-- `visitOperation` (source lines 59–76): run `_visitOperation` inside the
failure boundary; on error, log a warning and leave the state untouched. -/
def visitOperation (C : Collaborators) (operation : Operation)
    (context : OperationContext) (s : CollectorState) : CollectorState :=
  match _visitOperation C operation context s with
  | .ok s' => s'
  | .error _ => s

/-- The `operations` getter (source lines 30–53): error when the aggregator
is empty, otherwise one operation selector per resource, in insertion
order. -/
def operations (s : CollectorState) : Except String (List OperationSelector) :=
  if s.optionsByResource.size = 0 then
    .error "No operations found in OpenAPI document"
  else
    .ok (s.optionsByResource.map (fun p =>
      { displayName := "Operation"
        name := "operation"
        type := "options"
        noDataExpression := true
        displayOptions := some ⟨[p.1], none⟩
        options := p.2
        default := "" }))

/-- The `fields` getter (source lines 55–57): a defensive copy of the Global
Field List (the identity on values in the embedding). -/
def fieldsView (s : CollectorState) : List NodeProperty :=
  s.fields

/-- A whole traversal: the external driver calls `visitOperation` once per
(operation, context) pair, in document order. -/
def runVisits (C : Collaborators) (visits : List (Operation × OperationContext))
    (s : CollectorState) : CollectorState :=
  visits.foldl (fun st v => visitOperation C v.1 v.2 st) s

end BaseOperationsCollector

namespace OperationsCollector

/-- The subclass override of `parseOperation` (source lines 227–242): run the
base derivation, then prepend the endpoint notice (`typeOptions.theme =
'info'`) to the field list. -/
def variantNoticeField (context : OperationContext) : NodeProperty :=
  { displayName := strToUpper context.method ++ " " ++ context.pattern
    name := "operation"
    type := "notice"
    options := []
    themeInfo := true
    default := "" }

/-- `OperationsCollector.parseOperation`: base result with the endpoint
notice unshifted onto the fields. -/
def parseOperation (C : Collaborators) (operation : Operation)
    (context : OperationContext) :
    Except String (OperationOption × List NodeProperty) := do
  let result ← BaseOperationsCollector.parseOperation C operation context
  pure (result.1, variantNoticeField context :: result.2)

end OperationsCollector

/-! ## Concrete example inputs, used by witnesses and counterexamples -/

/-- A sample parameter-derived field (required). -/
def paramPetId : NodeProperty :=
  { displayName := "Pet Id", name := "petId", type := "string"
    required := true, options := [] }

/-- A sample parameter-derived field (optional). -/
def paramLimit : NodeProperty :=
  { displayName := "Limit", name := "limit", type := "number"
    required := false, options := [] }

/-- A sample body-derived field (required). -/
def bodyFieldName : NodeProperty :=
  { displayName := "Name", name := "name", type := "string"
    required := true, options := [] }

/-- A sample body-derived field (optional). -/
def bodyFieldNickname : NodeProperty :=
  { displayName := "Nickname", name := "nickname", type := "string"
    required := false, options := [] }

/-- Concrete happy-path collaborators. -/
def exC : Collaborators :=
  { shouldSkip := fun _ _ => .ok false
    name := fun _ _ => .ok "Get Pet"
    value := fun _ _ => .ok "getPet"
    action := fun _ _ => .ok "Get a pet"
    description := fun _ _ => .ok "Gets a pet by id"
    resourceValue := fun tag => .ok tag
    fromParameters := fun _ => .ok [paramPetId, paramLimit]
    fromRequestBody := fun _ => .ok []
    replacePathVarsToParameter := fun p => p }

/-- Collaborators whose namer throws (a recoverable-per-operation failure). -/
def exCFail : Collaborators :=
  { exC with name := fun _ _ => .error "Namer failure" }

/-- Collaborators that skip every operation. -/
def exCSkip : Collaborators :=
  { exC with shouldSkip := fun _ _ => .ok true }

/-- Collaborators whose request-body derivation throws. -/
def exCBadBody : Collaborators :=
  { exC with
      fromRequestBody := fun _ => .error "Unsupported schema"
      fromParameters := fun _ => .ok [paramPetId, paramLimit] }

/-- Collaborators returning body fields. -/
def exCWithBody : Collaborators :=
  { exC with fromRequestBody := fun _ => .ok [bodyFieldName, bodyFieldNickname] }

/-- A sample operation tagged `["pet"]`. -/
def exOp : Operation :=
  { operationId := some "getPet", tags := some ["pet"]
    parameters := some ["petId", "limit"], requestBody := none }

/-- The sample operation with its tag list absent. -/
def exOpUntagged : Operation :=
  { exOp with tags := none }

/-- A sample operation tagged with two resources. -/
def exOpTwoTags : Operation :=
  { exOp with tags := some ["pet", "store"] }

/-- A sample context: `GET /pets/{petId}`. -/
def exCtx : OperationContext := ⟨"/pets/\x7bpetId\x7d", "get"⟩

/-- A plain sample context: `POST /pets`. -/
def exCtxPost : OperationContext := ⟨"/pets", "post"⟩

/-! ## Helper lemmas -/

open BaseOperationsCollector

/-- Bind on `Except` after a success. -/
theorem exceptBind_ok {α β ε : Type} (a : α) (f : α → Except ε β) :
    (Except.ok a >>= f) = f a := rfl

/-- Bind on `Except` after a failure. -/
theorem exceptBind_error {α β ε : Type} (e : ε) (f : α → Except ε β) :
    ((Except.error e : Except ε α) >>= f) = .error e := rfl

/-- `pure` on `Except` is `ok`. -/
theorem exceptPure {α ε : Type} (a : α) :
    (pure a : Except ε α) = .ok a := rfl

/-- Running a traversal over an appended visit list runs the two parts in
sequence. -/
theorem runVisits_append (C : Collaborators)
    (a b : List (Operation × OperationContext)) (s : CollectorState) :
    runVisits C (a ++ b) s = runVisits C b (runVisits C a s) := by
  simp [runVisits, List.foldl_append]

/-- Unfolding one visit of a traversal. -/
theorem runVisits_cons (C : Collaborators) (v : Operation × OperationContext)
    (vs : List (Operation × OperationContext)) (s : CollectorState) :
    runVisits C (v :: vs) s = runVisits C vs (visitOperation C v.1 v.2 s) := rfl

/-- When the inner step fails, the failure boundary leaves the state
untouched. -/
theorem visitOperation_of_error (C : Collaborators) (op : Operation)
    (ctx : OperationContext) (s : CollectorState) (e : String)
    (h : _visitOperation C op ctx s = .error e) :
    visitOperation C op ctx s = s := by
  unfold visitOperation
  rw [h]

/-! ## Claim theorems -/

/-- Claim C6: if the skip policy signals skip, `visit` emits nothing — the
inner step succeeds without touching the state, so the Global Field List and
the Aggregator are exactly as before the call. -/
theorem c6_skip_is_frame (C : Collaborators) (op : Operation)
    (ctx : OperationContext) (s : CollectorState)
    (h : C.shouldSkip op ctx = .ok true) :
    _visitOperation C op ctx s = .ok s ∧
    visitOperation C op ctx s = s := by
  have hinner : _visitOperation C op ctx s = .ok s := by
    unfold _visitOperation visitCore
    rw [h]
    rfl
  exact ⟨hinner, by unfold visitOperation; rw [hinner]⟩

/-- Witness for C6 at concrete inputs. -/
theorem c6_skip_is_frame_witness :
    exCSkip.shouldSkip exOp exCtx = .ok true ∧
    (_visitOperation exCSkip exOp exCtx initialState = .ok initialState ∧
     visitOperation exCSkip exOp exCtx initialState = initialState) :=
  ⟨rfl, c6_skip_is_frame exCSkip exOp exCtx initialState rfl⟩

/-- Claim C2: the failure boundary of `visitOperation` — if the inner step
errors, `visit` returns normally with the state unchanged, and a traversal
containing the failing operation produces exactly the output of the traversal
without it (subsequent operations still processed). -/
theorem c2_error_isolation (C : Collaborators) (op : Operation)
    (ctx : OperationContext) (e : String)
    (pre post : List (Operation × OperationContext)) (s : CollectorState)
    (herr : _visitOperation C op ctx (runVisits C pre s) = .error e) :
    visitOperation C op ctx (runVisits C pre s) = runVisits C pre s ∧
    runVisits C (pre ++ (op, ctx) :: post) s = runVisits C (pre ++ post) s := by
  have h1 := visitOperation_of_error C op ctx (runVisits C pre s) e herr
  refine ⟨h1, ?_⟩
  rw [runVisits_append, runVisits_append, runVisits_cons, h1]

/-- Witness for C2: a namer failure on the middle operation of a three-visit
traversal is dropped, the other two visits going through. -/
theorem c2_error_isolation_witness :
    _visitOperation exCFail exOp exCtx
      (runVisits exCFail [(exOpUntagged, exCtxPost)] initialState) =
      .error "Namer failure" ∧
    (visitOperation exCFail exOp exCtx
        (runVisits exCFail [(exOpUntagged, exCtxPost)] initialState) =
      runVisits exCFail [(exOpUntagged, exCtxPost)] initialState ∧
     runVisits exCFail
        ([(exOpUntagged, exCtxPost)] ++ (exOp, exCtx) :: [(exOp, exCtxPost)])
        initialState =
      runVisits exCFail ([(exOpUntagged, exCtxPost)] ++ [(exOp, exCtxPost)])
        initialState) :=
  ⟨rfl, c2_error_isolation exCFail exOp exCtx "Namer failure"
    [(exOpUntagged, exCtxPost)] [(exOp, exCtxPost)] initialState rfl⟩

/-- Claim C10: an operation that passes the skip policy but has no tag list
makes the inner step fail; the boundary catches it, the state is unchanged,
and when option/field derivation itself succeeded the failure is precisely
the dereference of the absent tag list. -/
theorem c10_untagged_dropped (C : Collaborators) (op : Operation)
    (ctx : OperationContext) (s : CollectorState)
    (hskip : C.shouldSkip op ctx = .ok false) (htags : op.tags = none) :
    (_visitOperation C op ctx s).isOk = false ∧
    visitOperation C op ctx s = s ∧
    (∀ option fields, parseOperation C op ctx = .ok (option, fields) →
      _visitOperation C op ctx s =
        .error "TypeError: Cannot read properties of undefined") := by
  have hvc : ∀ r, _visitOperation C op ctx s = r →
      r.isOk = false ∧
      (∀ option fields, parseOperation C op ctx = .ok (option, fields) →
        r = .error "TypeError: Cannot read properties of undefined") := by
    intro r hr
    unfold _visitOperation visitCore at hr
    rw [hskip, exceptBind_ok, if_neg (by simp)] at hr
    cases hp : parseOperation C op ctx with
    | error e =>
      rw [hp, exceptBind_error] at hr
      subst hr
      exact ⟨rfl, fun o f h => Except.noConfusion h⟩
    | ok v =>
      rw [hp, exceptBind_ok, htags] at hr
      simp only [tagsOrThrow, exceptBind_error] at hr
      subst hr
      exact ⟨rfl, by intro o f _; rfl⟩
  obtain ⟨h1, h2⟩ := hvc _ rfl
  refine ⟨h1, ?_, h2⟩
  unfold visitOperation
  cases hv : _visitOperation C op ctx s with
  | ok s' => rw [hv] at h1; cases h1
  | error e => rfl

/-- Witness for C10 at concrete inputs. -/
theorem c10_untagged_dropped_witness :
    exC.shouldSkip exOpUntagged exCtx = .ok false ∧
    exOpUntagged.tags = none ∧
    ((_visitOperation exC exOpUntagged exCtx initialState).isOk = false ∧
     visitOperation exC exOpUntagged exCtx initialState = initialState ∧
     (∀ option fields,
        parseOperation exC exOpUntagged exCtx = .ok (option, fields) →
        _visitOperation exC exOpUntagged exCtx initialState =
          .error "TypeError: Cannot read properties of undefined")) :=
  ⟨rfl, rfl, c10_untagged_dropped exC exOpUntagged exCtx initialState rfl rfl⟩

/-- Claim C9: determinism — two fresh collector instances fed the same visit
sequence with the same collaborators produce structurally identical `fields`
and `operations` views. -/
theorem c9_deterministic (C : Collaborators)
    (visits : List (Operation × OperationContext)) (s₁ s₂ : CollectorState)
    (h₁ : s₁ = initialState) (h₂ : s₂ = initialState) :
    fieldsView (runVisits C visits s₁) = fieldsView (runVisits C visits s₂) ∧
    operations (runVisits C visits s₁) = operations (runVisits C visits s₂) := by
  subst h₁
  subst h₂
  exact ⟨rfl, rfl⟩

/-- Witness for C9 at concrete inputs. -/
theorem c9_deterministic_witness :
    (initialState = initialState ∧ initialState = initialState) ∧
    (fieldsView (runVisits exC [(exOp, exCtx)] initialState) =
       fieldsView (runVisits exC [(exOp, exCtx)] initialState) ∧
     operations (runVisits exC [(exOp, exCtx)] initialState) =
       operations (runVisits exC [(exOp, exCtx)] initialState)) :=
  ⟨⟨rfl, rfl⟩,
   c9_deterministic exC [(exOp, exCtx)] initialState initialState rfl rfl⟩

/-- Claim C8: the variant collector's `parseOperation` returns the same
option descriptor as the base one and the base field list with exactly one
notice field prepended, whose display text is the uppercased method, a space,
and the path pattern. -/
theorem c8_variant_prepends_notice (C : Collaborators) (op : Operation)
    (ctx : OperationContext) :
    OperationsCollector.parseOperation C op ctx =
      (parseOperation C op ctx).map
        (fun r => (r.1, OperationsCollector.variantNoticeField ctx :: r.2)) ∧
    (OperationsCollector.variantNoticeField ctx).displayName =
      strToUpper ctx.method ++ " " ++ ctx.pattern ∧
    (OperationsCollector.variantNoticeField ctx).type = "notice" := by
  refine ⟨?_, rfl, rfl⟩
  unfold OperationsCollector.parseOperation
  cases h : parseOperation C op ctx <;> simp [h, Except.map]

/-- The option descriptor `parseOperation` derives from `exC` at `exCtx`. -/
def exOption : OperationOption :=
  { name := "Get Pet", value := "getPet", action := "Get a pet"
    description := "Gets a pet by id"
    routing := ⟨⟨"GET", "=/pets/\x7bpetId\x7d"⟩⟩ }

/-- A collector state with one registered resource. -/
def exAggState : CollectorState := ⟨[], [("pet", [exOption])]⟩

/-- The operation selector the getter emits for resource `pet`. -/
def exSelectorPet : OperationSelector :=
  { displayName := "Operation", name := "operation", type := "options"
    noDataExpression := true
    displayOptions := some ⟨["pet"], none⟩
    options := [exOption], default := "" }

/-- Claim C3: the `operations` getter raises exactly when zero resources are
registered; otherwise it returns one options-type selector per resource, in
insertion order, visible only for its resource, with the aggregator's option
sequence as its choices. -/
theorem c3_operations_getter (s : CollectorState) :
    (operations s = .error "No operations found in OpenAPI document" ↔
      s.optionsByResource = []) ∧
    (∀ l, operations s = .ok l →
      l = s.optionsByResource.map (fun p =>
        { displayName := "Operation", name := "operation", type := "options"
          noDataExpression := true
          displayOptions := some ⟨[p.1], none⟩
          options := p.2, default := "" })) := by
  unfold operations OptionsByResourceMap.size
  constructor
  · constructor
    · intro h
      by_cases hm : s.optionsByResource.length = 0
      · exact List.length_eq_zero.mp hm
      · rw [if_neg hm] at h
        cases h
    · intro h
      rw [if_pos (by rw [h]; rfl)]
  · intro l h
    by_cases hm : s.optionsByResource.length = 0
    · rw [if_pos hm] at h
      cases h
    · rw [if_neg hm] at h
      exact (Except.ok.inj h).symm

/-- Witness for C3: one registered resource yields one selector, and the
selector matches the aggregator contents. -/
theorem c3_operations_getter_witness :
    operations exAggState = .ok [exSelectorPet] ∧
    [exSelectorPet] = exAggState.optionsByResource.map (fun p =>
      { displayName := "Operation", name := "operation", type := "options"
        noDataExpression := true
        displayOptions := some ⟨[p.1], none⟩
        options := p.2, default := "" }) :=
  ⟨rfl, (c3_operations_getter exAggState).2 [exSelectorPet] rfl⟩

/-- Claim C5: a request-body derivation failure is absorbed by the Field
Assembler — `parseFields` succeeds, returns the parameter fields followed by
exactly one advisory notice and zero body-derived fields, and the advisory's
display text is the uppercased method, a space, the pattern, `<br/><br/>`,
then the literal guidance sentence. -/
theorem c5_body_failure_advisory (C : Collaborators) (op : Operation)
    (ctx : OperationContext) (e : String) (paramFields : List NodeProperty)
    (hb : C.fromRequestBody op.requestBody = .error e)
    (hp : parseParameterFields C op = .ok paramFields) :
    parseFields C op ctx = .ok (paramFields ++ [bodyNoticeField ctx]) ∧
    (bodyNoticeField ctx).displayName =
      strToUpper ctx.method ++ " " ++ ctx.pattern ++ "<br/><br/>" ++
      "There's no body available for request, kindly use HTTP Request node to send body" ∧
    (bodyNoticeField ctx).type = "notice" := by
  refine ⟨?_, rfl, rfl⟩
  unfold parseFields
  rw [hp, exceptBind_ok, hb]
  rfl

/-- Witness for C5: the `POST /pets` scenario with a malformed body schema
yields the literal advisory text from the spec. -/
theorem c5_body_failure_advisory_witness :
    exCBadBody.fromRequestBody exOp.requestBody = .error "Unsupported schema" ∧
    parseParameterFields exCBadBody exOp =
      .ok [paramPetId, additionalQueryParametersField [paramLimit]] ∧
    parseFields exCBadBody exOp exCtxPost =
      .ok ([paramPetId, additionalQueryParametersField [paramLimit]] ++
        [bodyNoticeField exCtxPost]) ∧
    (bodyNoticeField exCtxPost).displayName =
      "POST /pets<br/><br/>There's no body available for request, kindly use HTTP Request node to send body" :=
  ⟨rfl, rfl,
   (c5_body_failure_advisory exCBadBody exOp exCtxPost "Unsupported schema"
      [paramPetId, additionalQueryParametersField [paramLimit]] rfl rfl).1,
   by decide⟩

/-- Claim C4: on the success path the assembled field list is required
parameters, the optional-parameters collection iff any optional parameter
exists, required body fields, and the optional-body collection iff any
optional body field exists; the required/optional split is a permutation of
the derived fields, so every derived field appears exactly once (directly or
inside its collection). -/
theorem c4_field_assembly (C : Collaborators) (op : Operation)
    (ctx : OperationContext) (ps : List String)
    (allParams bodyFields : List NodeProperty)
    (hps : op.parameters = some ps)
    (hfp : C.fromParameters ps = .ok allParams)
    (hfb : C.fromRequestBody op.requestBody = .ok bodyFields) :
    parseFields C op ctx = .ok (
      allParams.filter (fun p => p.required)
      ++ (if (allParams.filter (fun p => !p.required)).length > 0 then
            [additionalQueryParametersField
              (allParams.filter (fun p => !p.required))]
          else [])
      ++ bodyFields.filter (fun f => f.required)
      ++ (if (bodyFields.filter (fun f => !f.required)).length > 0 then
            [additionalBodyFieldsField
              (bodyFields.filter (fun f => !f.required))]
          else [])) ∧
    (allParams.filter (fun p => p.required) ++
      allParams.filter (fun p => !p.required)).Perm allParams ∧
    (bodyFields.filter (fun f => f.required) ++
      bodyFields.filter (fun f => !f.required)).Perm bodyFields := by
  refine ⟨?_, List.filter_append_perm _ allParams,
    List.filter_append_perm _ bodyFields⟩
  have hpp : parseParameterFields C op = .ok
      (allParams.filter (fun p => p.required)
        ++ (if (allParams.filter (fun p => !p.required)).length > 0 then
              [additionalQueryParametersField
                (allParams.filter (fun p => !p.required))]
            else [])) := by
    unfold parseParameterFields
    simp only [hps, hfp, exceptBind_ok]
    by_cases hlen : (allParams.filter (fun p => !p.required)).length > 0
    · simp only [if_pos hlen, exceptPure]
    · simp only [if_neg hlen, exceptPure, List.append_nil]
  unfold parseFields
  simp only [hpp, exceptBind_ok, hfb]
  by_cases hbl : bodyFields.length > 0
  · simp only [if_pos hbl]
    by_cases hob : (bodyFields.filter (fun f => !f.required)).length > 0
    · simp only [if_pos hob, exceptPure]
    · simp only [if_neg hob, exceptPure, List.append_nil]
  · simp only [if_neg hbl]
    have hbe : bodyFields = [] := by
      simpa using Nat.le_antisymm (Nat.not_lt.mp hbl) (Nat.zero_le _)
    subst hbe
    simp [exceptPure]

/-- Witness for C4: one required and one optional parameter plus one required
and one optional body field assemble into the four-slot layout. -/
theorem c4_field_assembly_witness :
    exOp.parameters = some ["petId", "limit"] ∧
    exCWithBody.fromParameters ["petId", "limit"] = .ok [paramPetId, paramLimit] ∧
    exCWithBody.fromRequestBody exOp.requestBody =
      .ok [bodyFieldName, bodyFieldNickname] ∧
    parseFields exCWithBody exOp exCtx = .ok
      [paramPetId, additionalQueryParametersField [paramLimit],
       bodyFieldName, additionalBodyFieldsField [bodyFieldNickname]] := by
  refine ⟨rfl, rfl, rfl, ?_⟩
  have h := (c4_field_assembly exCWithBody exOp exCtx ["petId", "limit"]
    [paramPetId, paramLimit] [bodyFieldName, bodyFieldNickname]
    rfl rfl rfl).1
  simpa using h

/-! ## Aggregator lemmas -/

open OptionsByResourceMap in
/-- Effect of `add` on one resource's option sequence: appended under the
target resource, untouched elsewhere. -/
theorem resOptions_add (m : OptionsByResourceMap) (r r' : String)
    (o : OperationOption) :
    (m.add r' o).resOptions r =
      if r = r' then m.resOptions r ++ [o] else m.resOptions r := by
  induction m with
  | nil =>
    by_cases h : r = r'
    · subst h
      simp [add, resOptions]
    · simp [add, resOptions, if_neg h, if_neg (Ne.symm h)]
  | cons p ps ih =>
    by_cases hp : p.1 = r'
    · by_cases hr : r = r'
      · subst hr
        simp [add, resOptions, hp]
      · simp [add, resOptions, hp, if_neg hr, if_neg (Ne.symm hr)]
    · by_cases hq : p.1 = r
      · have hr : ¬r = r' := fun he => hp (he ▸ hq)
        simp [add, resOptions, hp, hq, if_neg hr]
      · simp [add, resOptions, hp, hq, ih]

/-- `add` under other resources never disturbs a resource not in the added
list. -/
theorem resOptions_foldl_frame (rs : List String) (m : OptionsByResourceMap)
    (o : OperationOption) (r : String) (hr : r ∉ rs) :
    (rs.foldl (fun acc r' => acc.add r' o) m).resOptions r =
      m.resOptions r := by
  induction rs generalizing m with
  | nil => rfl
  | cons a as ih =>
    simp only [List.mem_cons, not_or] at hr
    simp only [List.foldl]
    rw [ih _ hr.2, resOptions_add, if_neg hr.1]

/-- Registering one option under a list of distinct resources appends it
exactly once to each of their sequences. -/
theorem resOptions_foldl_add (rs : List String) (m : OptionsByResourceMap)
    (o : OperationOption) (hnd : rs.Nodup) (r : String) (hr : r ∈ rs) :
    (rs.foldl (fun acc r' => acc.add r' o) m).resOptions r =
      m.resOptions r ++ [o] := by
  induction rs generalizing m with
  | nil => cases hr
  | cons a as ih =>
    simp only [List.nodup_cons] at hnd
    simp only [List.foldl]
    rcases List.mem_cons.mp hr with he | hm
    · subst he
      rw [resOptions_foldl_frame as _ o r hnd.1, resOptions_add, if_pos rfl]
    · have hra : ¬r = a := fun he => hnd.1 (he ▸ hm)
      rw [ih _ hnd.2 hm, resOptions_add, if_neg hra]

/-- Existing aggregator entries survive an `add` at the same index. -/
theorem resOptions_add_preserves (m : OptionsByResourceMap) (r' : String)
    (o' : OperationOption) (r : String) (i : Nat) (o : OperationOption)
    (h : (m.resOptions r)[i]? = some o) :
    ((m.add r' o').resOptions r)[i]? = some o := by
  rw [resOptions_add]
  by_cases hr : r = r'
  · rw [if_pos hr]
    have hlen : i < (m.resOptions r).length :=
      (List.getElem?_eq_some.mp h).1
    rw [List.getElem?_append_left hlen]
    exact h
  · rw [if_neg hr]
    exact h

/-- Existing aggregator entries survive a whole fan-out. -/
theorem resOptions_foldl_preserves (rs : List String) (m : OptionsByResourceMap)
    (o' : OperationOption) (r : String) (i : Nat) (o : OperationOption)
    (h : (m.resOptions r)[i]? = some o) :
    ((rs.foldl (fun acc r' => acc.add r' o') m).resOptions r)[i]? = some o := by
  induction rs generalizing m with
  | nil => exact h
  | cons a as ih =>
    exact ih _ (resOptions_add_preserves m a o' r i o h)

/-! ## Fan-out lemmas -/

/-- The fan-out fold appends, per resource in order, the tagged copy of the
operation's fields, and registers the option under each resource. -/
theorem foldl_fanOutStep (operationFields : List NodeProperty)
    (option : OperationOption) (rs : List String) (s : CollectorState) :
    rs.foldl (fanOutStep operationFields option) s =
      { fields := s.fields ++
          (rs.map (fun r => addDisplayOption operationFields r option.name)).flatten
        optionsByResource :=
          rs.foldl (fun m r => m.add r option) s.optionsByResource } := by
  induction rs generalizing s with
  | nil => simp
  | cons a as ih =>
    simp only [List.foldl, List.map, List.flatten]
    rw [ih]
    simp [fanOutStep, List.append_assoc]

/-- Inverting a successful `parseOperation`: the option's routing template is
always `{method: upper(method), url: "=" ++ rewritten pattern}`. -/
theorem parseOperation_ok_routing (C : Collaborators) (op : Operation)
    (ctx : OperationContext) (option : OperationOption)
    (operationFields : List NodeProperty)
    (h : parseOperation C op ctx = .ok (option, operationFields)) :
    option.routing = ⟨⟨strToUpper ctx.method,
      "=" ++ C.replacePathVarsToParameter ctx.pattern⟩⟩ := by
  unfold parseOperation at h
  cases hn : C.name op ctx with
  | error e => rw [hn, exceptBind_error] at h; cases h
  | ok n =>
  rw [hn, exceptBind_ok] at h
  cases hv : C.value op ctx with
  | error e => rw [hv, exceptBind_error] at h; cases h
  | ok v =>
  rw [hv, exceptBind_ok] at h
  cases ha : C.action op ctx with
  | error e => rw [ha, exceptBind_error] at h; cases h
  | ok a =>
  rw [ha, exceptBind_ok] at h
  cases hd : C.description op ctx with
  | error e => rw [hd, exceptBind_error] at h; cases h
  | ok d =>
  rw [hd, exceptBind_ok] at h
  cases hf : parseFields C op ctx with
  | error e => rw [hf, exceptBind_error] at h; cases h
  | ok fs =>
  rw [hf, exceptBind_ok] at h
  have h' := Except.ok.inj h
  injection h' with h1 h2
  rw [← h1]

/-- Inverting a successful `_visitOperation`: the new state is the old one
(skip) or the fan-out fold for some parsed option, fields and resources. -/
theorem _visitOperation_ok_inv (C : Collaborators) (op : Operation)
    (ctx : OperationContext) (s s' : CollectorState)
    (h : _visitOperation C op ctx s = .ok s') :
    s' = s ∨ ∃ (option : OperationOption)
      (operationFields : List NodeProperty) (rs : List String),
      s' = rs.foldl (fanOutStep operationFields option) s := by
  unfold _visitOperation visitCore at h
  cases hskip : C.shouldSkip op ctx with
  | error e => rw [hskip, exceptBind_error] at h; cases h
  | ok b =>
  rw [hskip, exceptBind_ok] at h
  cases b with
  | true =>
    rw [if_pos rfl] at h
    exact Or.inl (Except.ok.inj h).symm
  | false =>
  rw [if_neg (by simp)] at h
  cases hp : parseOperation C op ctx with
  | error e => rw [hp, exceptBind_error] at h; cases h
  | ok pr =>
  rw [hp, exceptBind_ok] at h
  cases htags : op.tags with
  | none =>
    rw [htags] at h
    simp only [tagsOrThrow, exceptBind_error] at h
    cases h
  | some ts =>
  rw [htags] at h
  simp only [tagsOrThrow, exceptBind_ok, exceptPure] at h
  cases hres : ts.mapM C.resourceValue with
  | error e => rw [hres, exceptBind_error] at h; cases h
  | ok rs =>
  rw [hres, exceptBind_ok] at h
  exact Or.inr ⟨pr.1, pr.2, rs, (Except.ok.inj h).symm⟩

/-! ## Claims C1 and C7 -/

/-- Counterexample to C1 as stated: with a namer whose `name` and `value`
differ, the tagged fields carry the option's *name* in the `operation`
constraint of their visibility condition, not its *value*. -/
theorem c1_counterexample :
    ((visitOperation exC exOp exCtx initialState).fields.map
        (fun f => f.displayOptions)) =
      [some ⟨["pet"], some ["Get Pet"]⟩, some ⟨["pet"], some ["Get Pet"]⟩] ∧
    (parseOperation exC exOp exCtx).map (fun r => r.1.value) = .ok "getPet" ∧
    (parseOperation exC exOp exCtx).map (fun r => r.1.name) = .ok "Get Pet" ∧
    some (⟨["pet"], some ["Get Pet"]⟩ : DisplayShow) ≠
      some ⟨["pet"], some ["getPet"]⟩ :=
  ⟨rfl, rfl, rfl, by decide⟩

/-- Claim C1 (amended): for a non-skipped operation resolving to resources
`rs`, the visit appends, per resource in order, an independent tagged copy of
the field list — every copied field's visibility condition being
`{resource: [r], operation: [option.name]}` (the option's *name*, not its
`value`) — and registers the option exactly once under each distinct
resource. -/
theorem c1_fanout_per_resource (C : Collaborators) (op : Operation)
    (ctx : OperationContext) (s : CollectorState) (option : OperationOption)
    (operationFields : List NodeProperty) (ts rs : List String)
    (hskip : C.shouldSkip op ctx = .ok false)
    (hparse : parseOperation C op ctx = .ok (option, operationFields))
    (htags : op.tags = some ts)
    (hres : ts.mapM C.resourceValue = .ok rs) :
    visitOperation C op ctx s =
      { fields := s.fields ++
          (rs.map (fun r => addDisplayOption operationFields r option.name)).flatten
        optionsByResource :=
          rs.foldl (fun m r => m.add r option) s.optionsByResource } ∧
    (∀ r f, f ∈ addDisplayOption operationFields r option.name →
      f.displayOptions = some ⟨[r], some [option.name]⟩) ∧
    (∀ r, (addDisplayOption operationFields r option.name).length =
      operationFields.length) ∧
    (rs.Nodup → ∀ r ∈ rs,
      (rs.foldl (fun m r => m.add r option) s.optionsByResource).resOptions r =
        s.optionsByResource.resOptions r ++ [option]) := by
  have hv : _visitOperation C op ctx s =
      .ok (rs.foldl (fanOutStep operationFields option) s) := by
    unfold _visitOperation visitCore
    simp only [hskip, exceptBind_ok, Bool.false_eq_true, if_false, hparse,
      htags, tagsOrThrow, hres, exceptPure]
  refine ⟨?_, ?_, ?_, ?_⟩
  · unfold visitOperation
    rw [hv, foldl_fanOutStep]
  · intro r f hf
    rcases List.mem_map.mp hf with ⟨g, _, hg⟩
    rw [← hg]
  · intro r
    simp [addDisplayOption]
  · intro hnd r hr
    exact resOptions_foldl_add rs s.optionsByResource option hnd r hr

/-- Witness for the amended C1 at concrete inputs. -/
theorem c1_fanout_per_resource_witness :
    visitOperation exC exOp exCtx initialState =
      { fields := initialState.fields ++
          (["pet"].map (fun r => addDisplayOption
            [paramPetId, additionalQueryParametersField [paramLimit]]
            r exOption.name)).flatten
        optionsByResource := ["pet"].foldl (fun m r => m.add r exOption)
          initialState.optionsByResource } :=
  (c1_fanout_per_resource exC exOp exCtx initialState exOption
    [paramPetId, additionalQueryParametersField [paramLimit]]
    ["pet"] ["pet"] rfl rfl rfl rfl).1

/-- Counterexample to C7 as stated: the routing URL is not the rewritten
pattern itself — the collector prefixes it with `=` (the n8n expression
marker). -/
theorem c7_counterexample :
    (parseOperation exC exOp exCtx).map (fun r => r.1.routing.request.url) =
      .ok ("=" ++ exC.replacePathVarsToParameter exCtx.pattern) ∧
    exC.replacePathVarsToParameter exCtx.pattern = "/pets/\x7bpetId\x7d" ∧
    ("=/pets/\x7bpetId\x7d" : String) ≠ "/pets/\x7bpetId\x7d" :=
  ⟨rfl, rfl, by decide⟩

/-- Claim C7 (amended): every successfully derived option descriptor carries
the routing template `{method: upper(context.method), url: "=" ++
rewritePathVariables(context.pattern)}`, bound at creation; and no collector
operation ever mutates an option already registered in the aggregator — any
later visit preserves each existing entry at its index. -/
theorem c7_routing_bound_immutable (C : Collaborators) (op : Operation)
    (ctx : OperationContext) (option : OperationOption)
    (operationFields : List NodeProperty)
    (hparse : parseOperation C op ctx = .ok (option, operationFields)) :
    option.routing = ⟨⟨strToUpper ctx.method,
      "=" ++ C.replacePathVarsToParameter ctx.pattern⟩⟩ ∧
    (∀ (op' : Operation) (ctx' : OperationContext) (s : CollectorState)
       (r : String) (i : Nat) (o : OperationOption),
      (s.optionsByResource.resOptions r)[i]? = some o →
      ((visitOperation C op' ctx' s).optionsByResource.resOptions r)[i]? =
        some o) := by
  refine ⟨parseOperation_ok_routing C op ctx option operationFields hparse, ?_⟩
  intro op' ctx' s r i o h
  unfold visitOperation
  cases hv : _visitOperation C op' ctx' s with
  | error e => exact h
  | ok s' =>
    rcases _visitOperation_ok_inv C op' ctx' s s' hv with he | ⟨o', fs', rs', he⟩
    · rw [he]; exact h
    · rw [he, foldl_fanOutStep]
      exact resOptions_foldl_preserves rs' s.optionsByResource o' r i o h

/-- Witness for the amended C7 at concrete inputs. -/
theorem c7_routing_bound_immutable_witness :
    exOption.routing = ⟨⟨strToUpper exCtx.method,
      "=" ++ exC.replacePathVarsToParameter exCtx.pattern⟩⟩ :=
  (c7_routing_bound_immutable exC exOp exCtx exOption
    [paramPetId, additionalQueryParametersField [paramLimit]] rfl).1

end N8n
